import Mathlib

/-!
# Verification of the AVM value / machine core

A shallow embedding of the arb-avm repository's value model
(`value.CodePointValue` from `src/vm/machineContext.go`) and of the
spec-described parts of the interpreter whose Go sources are not in the
repository snapshot (opcode execution, balance tracker).  Bytes are `Nat`
below 256, byte strings are `List Nat`, and 256-bit machine integers are
`Nat` reduced modulo `2 ^ 256` where the code reduces them.
-/

namespace ArbAvm

/-! ## Byte-string helpers -/

/-- Big-endian encoding of `v` into `n` bytes (mirrors Go's
`binary.BigEndian` / `math/big` `FillBytes` behaviour: low `8 * n` bits,
most significant byte first). -/
def natToBytesBE : Nat → Nat → List Nat
  | 0, _ => []
  | n + 1, v => natToBytesBE n (v / 256) ++ [v % 256]

/-- Big-endian decoding of a byte string to a natural number. -/
def bytesToNatBE (l : List Nat) : Nat :=
  l.foldl (fun acc b => acc * 256 + b) 0

/-- Little-endian encoding of `v` into `n` bytes. -/
def natToBytesLE : Nat → Nat → List Nat
  | 0, _ => []
  | n + 1, v => v % 256 :: natToBytesLE n (v / 256)

/-- Little-endian decoding of a byte string. -/
def bytesToNatLE (l : List Nat) : Nat :=
  l.foldr (fun b acc => b + 256 * acc) 0

/-! ## Keccak-256 (legacy, 0x01 padding), as used by
`sha3.NewLegacyKeccak256` in `CodePointValue.Hash`. -/

def mask64 : Nat := 2 ^ 64 - 1

/-- 64-bit left rotation. -/
def rotl64 (v n : Nat) : Nat :=
  ((v <<< n) ||| (v >>> (64 - n))) &&& mask64

/-- Keccak round constants. -/
def keccakRC : List Nat :=
  [1, 32898, 9223372036854808714, 9223372039002292224,
   32907, 2147483649, 9223372039002292353, 9223372036854808585,
   138, 136, 2147516425, 2147483658,
   2147516555, 9223372036854775947, 9223372036854808713, 9223372036854808579,
   9223372036854808578, 9223372036854775936, 32778, 9223372039002259466,
   9223372039002292353, 9223372036854808704, 2147483649, 9223372039002292232]

/-- Keccak rotation offset of the lane at index `x + 5 * y`. -/
def keccakRot : Nat → Nat
  | 1 => 1
  | 2 => 62
  | 3 => 28
  | 4 => 27
  | 5 => 36
  | 6 => 44
  | 7 => 6
  | 8 => 55
  | 9 => 20
  | 10 => 3
  | 11 => 10
  | 12 => 43
  | 13 => 25
  | 14 => 39
  | 15 => 41
  | 16 => 45
  | 17 => 15
  | 18 => 21
  | 19 => 8
  | 20 => 18
  | 21 => 2
  | 22 => 61
  | 23 => 56
  | 24 => 14
  | _ => 0

def keccakTheta (a : List Nat) : List Nat :=
  let c := (List.range 5).map fun x =>
    (a.getD x 0) ^^^ (a.getD (x + 5) 0) ^^^ (a.getD (x + 10) 0) ^^^
      (a.getD (x + 15) 0) ^^^ (a.getD (x + 20) 0)
  let d := (List.range 5).map fun x =>
    (c.getD ((x + 4) % 5) 0) ^^^ rotl64 (c.getD ((x + 1) % 5) 0) 1
  (List.range 25).map fun i => (a.getD i 0) ^^^ (d.getD (i % 5) 0)

def keccakRhoPi (a : List Nat) : List Nat :=
  (List.range 25).foldl
    (fun b k =>
      let x := k % 5
      let y := k / 5
      b.set (y + 5 * ((2 * x + 3 * y) % 5)) (rotl64 (a.getD k 0) (keccakRot k)))
    (List.replicate 25 0)

def keccakChi (b : List Nat) : List Nat :=
  (List.range 25).map fun k =>
    let x := k % 5
    let y := k / 5
    (b.getD k 0) ^^^
      (((b.getD ((x + 1) % 5 + 5 * y) 0) ^^^ mask64) &&& (b.getD ((x + 2) % 5 + 5 * y) 0))

def keccakRound (a : List Nat) (rc : Nat) : List Nat :=
  let b := keccakChi (keccakRhoPi (keccakTheta a))
  b.set 0 ((b.getD 0 0) ^^^ rc)

def keccakF (st : List Nat) : List Nat :=
  keccakRC.foldl keccakRound st

/-- Multi-rate padding with domain byte `0x01` (legacy Keccak). -/
def keccakPad (msg : List Nat) : List Nat :=
  let padLen := 136 - msg.length % 136
  if padLen = 1 then msg ++ [129]
  else msg ++ [1] ++ List.replicate (padLen - 2) 0 ++ [128]

/-- Xor one 136-byte block into the first 17 lanes of the state. -/
def keccakAbsorbBlock (st block : List Nat) : List Nat :=
  (List.range 25).map fun i =>
    if i < 17 then (st.getD i 0) ^^^ bytesToNatLE ((block.drop (8 * i)).take 8)
    else st.getD i 0

def keccakSponge : Nat → List Nat → List Nat → List Nat
  | 0, st, _ => st
  | n + 1, st, input =>
      keccakSponge n (keccakF (keccakAbsorbBlock st (input.take 136))) (input.drop 136)

/-- Keccak-256 of a byte string, producing a 32-byte digest. -/
def keccak256 (msg : List Nat) : List Nat :=
  let p := keccakPad msg
  let st := keccakSponge (p.length / 136) (List.replicate 25 0) p
  ((List.range 4).map fun i => natToBytesLE 8 (st.getD i 0)).flatten

/-! ## SHA-256, as used by the `init` in `machineContext.go` to define the
`HaltCodePointHash` / `ErrorCodePointHash` sentinels. -/

def mask32 : Nat := 2 ^ 32 - 1

def rotr32 (v n : Nat) : Nat :=
  ((v >>> n) ||| (v <<< (32 - n))) &&& mask32

def sha256K : List Nat :=
  [1116352408, 1899447441, 3049323471, 3921009573, 961987163, 1508970993,
   2453635748, 2870763221, 3624381080, 310598401, 607225278, 1426881987,
   1925078388, 2162078206, 2614888103, 3248222580, 3835390401, 4022224774,
   264347078, 604807628, 770255983, 1249150122, 1555081692, 1996064986,
   2554220882, 2821834349, 2952996808, 3210313671, 3336571891, 3584528711,
   113926993, 338241895, 666307205, 773529912, 1294757372, 1396182291,
   1695183700, 1986661051, 2177026350, 2456956037, 2730485921, 2820302411,
   3259730800, 3345764771, 3516065817, 3600352804, 4094571909, 275423344,
   430227734, 506948616, 659060556, 883997877, 958139571, 1322822218,
   1537002063, 1747873779, 1955562222, 2024104815, 2227730452, 2361852424,
   2428436474, 2756734187, 3204031479, 3329325298]

def sha256Init : List Nat :=
  [1779033703, 3144134277, 1013904242, 2773480762,
   1359893119, 2600822924, 528734635, 1541459225]

/-- SHA-256 message padding: `0x80`, zeros, 64-bit big-endian bit length. -/
def sha256Pad (msg : List Nat) : List Nat :=
  let z := (64 - (msg.length + 9) % 64) % 64
  msg ++ [128] ++ List.replicate z 0 ++ natToBytesBE 8 (msg.length * 8)

/-- Extend the 16 block words to the 64-word message schedule. -/
def sha256Schedule (w : List Nat) : List Nat :=
  (List.range 48).foldl
    (fun w _ =>
      let n := w.length
      let s0 :=
        rotr32 (w.getD (n - 15) 0) 7 ^^^ rotr32 (w.getD (n - 15) 0) 18 ^^^ (w.getD (n - 15) 0) >>> 3
      let s1 :=
        rotr32 (w.getD (n - 2) 0) 17 ^^^ rotr32 (w.getD (n - 2) 0) 19 ^^^ (w.getD (n - 2) 0) >>> 10
      w ++ [(w.getD (n - 16) 0 + s0 + w.getD (n - 7) 0 + s1) % 2 ^ 32])
    w

/-- One round of the SHA-256 compression function.  The running state is
the word list `[a, b, c, d, e, f, g, h]`. -/
def sha256Step (w : List Nat) (hs : List Nat) (i : Nat) : List Nat :=
  let va := hs.getD 0 0
  let vb := hs.getD 1 0
  let vc := hs.getD 2 0
  let vd := hs.getD 3 0
  let ve := hs.getD 4 0
  let vf := hs.getD 5 0
  let vg := hs.getD 6 0
  let vh := hs.getD 7 0
  let big1 := rotr32 ve 6 ^^^ rotr32 ve 11 ^^^ rotr32 ve 25
  let choose := (ve &&& vf) ^^^ ((ve ^^^ mask32) &&& vg)
  let tmp1 := (vh + big1 + choose + sha256K.getD i 0 + w.getD i 0) % 2 ^ 32
  let big0 := rotr32 va 2 ^^^ rotr32 va 13 ^^^ rotr32 va 22
  let major := (va &&& vb) ^^^ (va &&& vc) ^^^ (vb &&& vc)
  let tmp2 := (big0 + major) % 2 ^ 32
  [(tmp1 + tmp2) % 2 ^ 32, va, vb, vc, (vd + tmp1) % 2 ^ 32, ve, vf, vg]

/-- Compress one 64-byte block into the hash state. -/
def sha256Block (hs block : List Nat) : List Nat :=
  let w := sha256Schedule ((List.range 16).map fun i => bytesToNatBE ((block.drop (4 * i)).take 4))
  let hs2 := (List.range 64).foldl (sha256Step w) hs
  (List.range 8).map fun i => (hs.getD i 0 + hs2.getD i 0) % 2 ^ 32

def sha256Blocks : Nat → List Nat → List Nat → List Nat
  | 0, hs, _ => hs
  | n + 1, hs, input => sha256Blocks n (sha256Block hs (input.take 64)) (input.drop 64)

/-- SHA-256 of a byte string, producing a 32-byte digest. -/
def sha256 (msg : List Nat) : List Nat :=
  let p := sha256Pad msg
  let hs := sha256Blocks (p.length / 64) sha256Init p
  (hs.map (natToBytesBE 4)).flatten

/-! ## The value model

Mirrors the `value` package: `IntValue`, `TupleValue`, `CodePointValue`
and `HashOnlyValue` become the four constructors of `Value`, and the
`Operation` interface with its `BasicOperation` / `ImmediateOperation`
implementations becomes `Operation`.  Byte opcodes are `Nat`s (the Go
`byte(op)` cast is `% 256`). -/

mutual

inductive Value where
  | int (n : Nat)
  | tuple (vs : List Value)
  | codePoint (insnNum : Int) (op : Operation) (nextHash : List Nat)
  | hashOnly (h : List Nat)

inductive Operation where
  | basic (opc : Nat)
  | immediate (opc : Nat) (val : Value)

end

/-- `HaltCodePointHash`, set by `init` in `machineContext.go` to
`sha256.Sum256([]byte("HaltCodePointHash"))`. -/
def haltCodePointHash : List Nat :=
  sha256 ("HaltCodePointHash".data.map Char.toNat)

/-- `ErrorCodePointHash`, set by `init` in `machineContext.go` to
`sha256.Sum256([]byte("ErrorCodePointHash"))`. -/
def errorCodePointHash : List Nat :=
  sha256 ("ErrorCodePointHash".data.map Char.toNat)

mutual

/-- Canonical value hashing.  The `codePoint` case is a direct
translation of `CodePointValue.Hash` in `machineContext.go`: the two
sentinel instruction numbers return the fixed sha256 constants; otherwise
the 34-byte (basic) or 66-byte (immediate) string
`byte(1) ‖ byte(op) ‖ [hash(val)] ‖ nextHash` is hashed with legacy
Keccak-256 (`CodePointCode = 1`).  Modelled from the spec: the `int`,
`tuple` and `hashOnly` cases (their Go sources, `IntValue.Hash` etc., are
not in the snapshot): `Int(n)` hashes the 32-byte big-endian encoding,
`Tuple(v₀…vₖ₋₁)` hashes `byte(3+k) ‖ hash(v₀) ‖ … ‖ hash(vₖ₋₁)`, and a
`HashOnly` value returns its stored digest. -/
def valueHash : Value → List Nat
  | .int n => keccak256 (natToBytesBE 32 n)
  | .tuple vs => keccak256 ((3 + vs.length) :: valueHashList vs)
  | .hashOnly h => h
  | .codePoint i op nh =>
      if i = -1 then haltCodePointHash
      else if i = -2 then errorCodePointHash
      else
        match op with
        | .immediate opc v => keccak256 (1 :: opc % 256 :: (valueHash v ++ nh))
        | .basic opc => keccak256 (1 :: opc % 256 :: nh)

/-- Concatenated hashes of a list of values. -/
def valueHashList : List Value → List Nat
  | [] => []
  | v :: vs => valueHash v ++ valueHashList vs

end

/-- `CodePointValue.Equal` from `machineContext.go`: a `HashOnly`
argument compares by hash (a `HashOnly` value's `Hash()` is its stored
digest), any other non-CodePoint argument is unequal, and two CodePoints
compare by `InsnNum` alone (the `Op` and `NextHash` comparisons are
commented out in the source). -/
def codePointEqual (i : Int) (op : Operation) (nh : List Nat) : Value → Bool
  | .hashOnly h => valueHash (.codePoint i op nh) == h
  | .codePoint j _ _ => i == j
  | .int _ => false
  | .tuple _ => false

/-! ## CodePoint serialization (`Marshal` / `NewCodePointValueFromReader`) -/

/-- The struct behind `CodePointValue` in `machineContext.go`. -/
structure CodePointValue where
  insnNum : Int
  op : Operation
  nextHash : List Nat

/-- `binary.Write(w, binary.BigEndian, &cv.InsnNum)`: the int64 as eight
big-endian two's-complement bytes. -/
def int64ToBytesBE (i : Int) : List Nat :=
  natToBytesBE 8 (Int.toNat (Int.emod i (2 ^ 64)))

mutual

/-- `Operation.Marshal`: `BasicOperation.Marshal` writes just the opcode
byte; `ImmediateOperation.Marshal` writes the opcode byte and then the
marshalled immediate value.  Neither writes the operation's `TypeCode`
(that is done only by the separate `MarshalOperation`). -/
def opMarshal : Operation → List Nat
  | .basic opc => [opc % 256]
  | .immediate opc v => opc % 256 :: marshalValue v

/-- Modelled from the spec: `MarshalValue` (not in the snapshot) writes
the 1-byte type tag and then the body of the wire encoding in section 6
of the spec — `Int` as 32 big-endian bytes, `Tuple` as its size byte and
children, `HashOnly` as the bare 32-byte digest.  The CodePoint body is
the in-snapshot `CodePointValue.Marshal` (see `cvMarshal`). -/
def marshalValue : Value → List Nat
  | .int n => 0 :: natToBytesBE 32 n
  | .tuple vs => 3 :: vs.length % 256 :: marshalValueList vs
  | .codePoint i op nh => 1 :: (int64ToBytesBE i ++ opMarshal op ++ nh)
  | .hashOnly h => 2 :: h

/-- The marshalled children of a tuple, in order. -/
def marshalValueList : List Value → List Nat
  | [] => []
  | v :: vs => marshalValue v ++ marshalValueList vs

end

/-- `CodePointValue.Marshal` from `machineContext.go`: the 8-byte
big-endian `InsnNum`, then `cv.Op.Marshal` (opcode byte, and immediate
value if any — with no immediate-flag byte), then the 32-byte
`NextHash`. -/
def cvMarshal (cv : CodePointValue) : List Nat :=
  int64ToBytesBE cv.insnNum ++ opMarshal cv.op ++ cv.nextHash

/-- `MarshalOperation`: the operation `TypeCode` (0 basic, 1 immediate)
followed by `op.Marshal`. -/
def marshalOperation (op : Operation) : List Nat :=
  (match op with
   | .basic _ => 0
   | .immediate _ _ => 1) :: opMarshal op

/-- Reading `n` bytes from a byte stream (`io.ReadFull`): fails when the
stream is shorter than `n`. -/
def readBytes (n : Nat) (l : List Nat) : Option (List Nat × List Nat) :=
  if n ≤ l.length then some (l.take n, l.drop n) else none

/-- `binary.Read` of a big-endian int64: eight bytes, reinterpreted as a
two's-complement signed value. -/
def readInt64BE (l : List Nat) : Option (Int × List Nat) :=
  match readBytes 8 l with
  | some (bs, rest) =>
      let v := bytesToNatBE bs
      some (if v < 2 ^ 63 then (v : Int) else (v : Int) - 2 ^ 64, rest)
  | none => none

mutual

/-- `NewOperationFromReader`: one `immediateCount` byte, then a basic
operation (opcode byte) if it is 0, an immediate operation (opcode byte
then a value) if it is 1, and an error otherwise.  The `fuel` argument
bounds the nesting of values and is consumed once per byte examined, so
`input.length + 1` never runs out. -/
def readOperation : Nat → List Nat → Option (Operation × List Nat)
  | 0, _ => none
  | _ + 1, [] => none
  | fuel + 1, flag :: rest =>
      if flag = 0 then
        match rest with
        | opc :: r2 => some (.basic opc, r2)
        | [] => none
      else if flag = 1 then
        match rest with
        | opc :: r2 =>
            match unmarshalValue fuel r2 with
            | some (v, r3) => some (.immediate opc v, r3)
            | none => none
        | [] => none
      else none

/-- Modelled from the spec: `UnmarshalValue` (not in the snapshot) reads
the type tag and dispatches per the wire encoding in section 6 of the
spec; the CodePoint body is read by the in-snapshot
`NewCodePointValueFromReader` (see `readCodePointValue`). -/
def unmarshalValue : Nat → List Nat → Option (Value × List Nat)
  | 0, _ => none
  | _ + 1, [] => none
  | fuel + 1, tag :: rest =>
      if tag = 0 then
        match readBytes 32 rest with
        | some (bs, r2) => some (.int (bytesToNatBE bs), r2)
        | none => none
      else if tag = 1 then
        match readCodePointValue fuel rest with
        | some (cv, r2) => some (.codePoint cv.insnNum cv.op cv.nextHash, r2)
        | none => none
      else if tag = 2 then
        match readBytes 32 rest with
        | some (bs, r2) => some (.hashOnly bs, r2)
        | none => none
      else if tag = 3 then
        match rest with
        | sz :: r2 =>
            match readValueList fuel sz r2 with
            | some (vs, r3) => some (.tuple vs, r3)
            | none => none
        | [] => none
      else none

/-- Reads `count` consecutive values (tuple children). -/
def readValueList : Nat → Nat → List Nat → Option (List Value × List Nat)
  | _, 0, l => some ([], l)
  | 0, _ + 1, _ => none
  | fuel + 1, count + 1, l =>
      match unmarshalValue fuel l with
      | some (v, r2) =>
          match readValueList fuel count r2 with
          | some (vs, r3) => some (v :: vs, r3)
          | none => none
      | none => none

/-- `NewCodePointValueFromReader`: the 8-byte big-endian `insnNum`, then
`NewOperationFromReader` (which expects an immediate-flag byte first),
then the 32-byte `nextHash`. -/
def readCodePointValue : Nat → List Nat → Option (CodePointValue × List Nat)
  | 0, _ => none
  | fuel + 1, l =>
      match readInt64BE l with
      | some (i, r1) =>
          match readOperation fuel r1 with
          | some (op, r2) =>
              match readBytes 32 r2 with
              | some (nh, r3) => some (⟨i, op, nh⟩, r3)
              | none => none
          | none => none
      | none => none

end

/-- `NewCodePointValueFromReader` applied to a finite byte string.  The
fuel only bounds recursion depth; a successful parse consumes at least
one byte per unit of fuel spent on descending, so `4 * length + 16` can
never be the reason a well-formed input fails. -/
def newCodePointValueFromReader (l : List Nat) : Option (CodePointValue × List Nat) :=
  readCodePointValue (4 * l.length + 16) l

/-! ## The machine fragment the claims exercise

The interpreter, stack and balance-tracker sources are not in the
repository snapshot (only their tests are), so the definitions below are
modelled from the spec, with the tests of `src/unnamed/part_000` fixing
the concrete behaviour they pin down. -/

/-- Modelled from the spec: machine status (section 3). -/
inductive MachineStatus where
  | Extensive
  | Halted
  | Errored
  | Blocked
deriving DecidableEq

/-- Modelled from the spec: tokens are 21-byte identifiers, a 20-byte
type followed by a 1-byte kind flag (0 fungible, 1 non-fungible). -/
abbrev TokenType := List Nat

/-- The kind flag is the final (21st) byte. -/
def tokenIsFungible (tok : TokenType) : Bool :=
  tok.getD 20 0 == 0

/-- Modelled from the spec: the balance tracker (section 4.3) keeps a
running balance per fungible token and a set of held item identifiers
per non-fungible token. -/
structure BalanceTracker where
  fungibles : List (TokenType × Nat)
  nonFungibles : List (TokenType × Nat)

def emptyTracker : BalanceTracker := ⟨[], []⟩

def addFungible : List (TokenType × Nat) → TokenType → Nat → List (TokenType × Nat)
  | [], tok, amt => [(tok, amt)]
  | (t, b) :: rest, tok, amt =>
      if t = tok then (t, b + amt) :: rest else (t, b) :: addFungible rest tok amt

def subFungible : List (TokenType × Nat) → TokenType → Nat → List (TokenType × Nat)
  | [], _, _ => []
  | (t, b) :: rest, tok, amt =>
      if t = tok then (t, b - amt) :: rest else (t, b) :: subFungible rest tok amt

def lookupFungible : List (TokenType × Nat) → TokenType → Nat
  | [], _ => 0
  | (t, b) :: rest, tok => if t = tok then b else lookupFungible rest tok

def removeNonFungible : List (TokenType × Nat) → TokenType → Nat → List (TokenType × Nat)
  | [], _, _ => []
  | (t, a) :: rest, tok, amt =>
      if t = tok ∧ a = amt then rest else (t, a) :: removeNonFungible rest tok amt

/-- Modelled from the spec: `credit(token, amount)` adds to a fungible
balance or records the identifier `amount` for a non-fungible token. -/
def BalanceTracker.credit (bt : BalanceTracker) (tok : TokenType) (amt : Nat) : BalanceTracker :=
  if tokenIsFungible tok then { bt with fungibles := addFungible bt.fungibles tok amt }
  else { bt with nonFungibles := (tok, amt) :: bt.nonFungibles }

/-- Modelled from the spec: `canSpend(token, amount)` is `balance ≥
amount` for fungible tokens and presence of the identifier for
non-fungible ones. -/
def BalanceTracker.canSpend (bt : BalanceTracker) (tok : TokenType) (amt : Nat) : Bool :=
  if tokenIsFungible tok then amt ≤ lookupFungible bt.fungibles tok
  else decide ((tok, amt) ∈ bt.nonFungibles)

/-- Modelled from the spec: `debit(token, amount)` decrements a fungible
balance or removes a non-fungible identifier. -/
def BalanceTracker.debit (bt : BalanceTracker) (tok : TokenType) (amt : Nat) : BalanceTracker :=
  if tokenIsFungible tok then { bt with fungibles := subFungible bt.fungibles tok amt }
  else { bt with nonFungibles := removeNonFungible bt.nonFungibles tok amt }

/-- An outgoing message, as built by `MachineAssertionContext.Send` in
`machineContext.go`: `protocol.NewMessage(data, tokType, currency,
dest.ToBytes())` with `tokType` the first 21 bytes of the token-type
integer's 32-byte encoding. -/
structure Message where
  data : Value
  tokenType : TokenType
  currency : Nat
  dest : List Nat

/-- The 21-byte token identifier carried inside a 256-bit stack integer:
the most significant 21 bytes of its 32-byte big-endian encoding. -/
def tokenOfInt (tokInt : Nat) : TokenType :=
  (natToBytesBE 32 tokInt).take 21

/-- Modelled from the spec: the machine record of section 3, with the
assertion context's outgoing messages and logs folded in (the context is
installed for the duration of a run). -/
structure Machine where
  pcVal : CodePointValue
  dataStack : List Value
  auxStack : List Value
  registerVal : Value
  staticVal : Value
  errHandler : CodePointValue
  status : MachineStatus
  balances : BalanceTracker
  outMsgs : List Message
  logs : List Value

/-- Modelled from the spec: error transfer on instruction failure
(sections 4.6 and 7).  If the handler is the Error sentinel
(`insnNum = -2`) the machine becomes `Errored`; otherwise control moves
to the handler and execution continues. -/
def instructionFailure (m : Machine) : Machine :=
  if m.errHandler.insnNum = -2 then { m with status := .Errored }
  else { m with pcVal := m.errHandler }

/-- A 256-bit word read as a two's-complement signed integer. -/
def toSigned (n : Nat) : Int :=
  if n < 2 ^ 255 then (n : Int) else (n : Int) - 2 ^ 256

/-- A signed result mapped back to its 256-bit unsigned representation. -/
def fromSigned (i : Int) : Nat :=
  (Int.emod i (2 ^ 256)).toNat

/-- Modelled from the spec: `SIGNEXTEND(x, k)` extends the signed value
in the low `k + 1` bytes of `x` to 256 bits. -/
def signExtend (x k : Nat) : Nat :=
  if 31 ≤ k then x % 2 ^ 256
  else
    let bits := 8 * (k + 1)
    let v := x % 2 ^ bits
    if v < 2 ^ (bits - 1) then v else v + (2 ^ 256 - 2 ^ bits)

/-- The opcodes modelled here (the subset the claims exercise). -/
inductive Opcode where
  | DIV
  | MOD
  | SDIV
  | SMOD
  | SIGNEXTEND
  | SEND
  | NBSEND

/-- Modelled from the spec: the division-family opcodes pop the dividend
`x` (stack top) and the divisor `y`; a zero divisor raises instruction
failure with the dividend left on the stack (section 4.6: "divisors of
zero cause the value to be left on the stack and error-handler
transfer"), otherwise `f x y` is pushed. -/
def execDivLike (f : Nat → Nat → Nat) (m : Machine) : Machine :=
  match m.dataStack with
  | .int x :: .int y :: rest =>
      if y = 0 then instructionFailure { m with dataStack := .int x :: rest }
      else { m with dataStack := .int (f x y) :: rest }
  | _ => instructionFailure m

/-- Modelled from the spec: `SEND` pops `Tuple(data, dest, amount,
tokenAsInt)`; if the balance tracker allows the debit it debits and
appends `Message(data, token, amount, dest)` to the assertion's outgoing
messages, and on insufficient balance it raises instruction failure with
the message tuple still on the stack (sections 4.6 and 7, and
`TestSendLowBalance`). -/
def execSend (m : Machine) : Machine :=
  match m.dataStack with
  | .tuple [data, .int dest, .int amt, .int tokInt] :: rest =>
      let tok := tokenOfInt tokInt
      if m.balances.canSpend tok amt then
        { m with
          dataStack := rest
          balances := m.balances.debit tok amt
          outMsgs := m.outMsgs ++ [⟨data, tok, amt, natToBytesBE 32 dest⟩] }
      else instructionFailure m
  | _ => instructionFailure m

/-- Modelled from the spec: `NBSEND` is the non-blocking variant — on
success it debits, emits the message and pushes `Int(1)`; on
insufficient balance it consumes the tuple and pushes `Int(0)` without
invoking the error handler (section 7 and `TestNBSendLowBalance`). -/
def execNbsend (m : Machine) : Machine :=
  match m.dataStack with
  | .tuple [data, .int dest, .int amt, .int tokInt] :: rest =>
      let tok := tokenOfInt tokInt
      if m.balances.canSpend tok amt then
        { m with
          dataStack := .int 1 :: rest
          balances := m.balances.debit tok amt
          outMsgs := m.outMsgs ++ [⟨data, tok, amt, natToBytesBE 32 dest⟩] }
      else { m with dataStack := .int 0 :: rest }
  | _ => instructionFailure m

/-- Modelled from the spec: dispatch for the modelled opcode subset
(section 4.6).  `DIV`/`MOD` are unsigned, `SDIV`/`SMOD` reinterpret the
operands as two's-complement signed values with truncated division
(Go's `big.Int.Quo` / `big.Int.Rem`), and `SIGNEXTEND` pops the value
and then the byte-count operand. -/
def execOp : Opcode → Machine → Machine
  | .DIV, m => execDivLike (fun x y => x / y) m
  | .MOD, m => execDivLike (fun x y => x % y) m
  | .SDIV, m => execDivLike (fun x y => fromSigned (Int.tdiv (toSigned x) (toSigned y))) m
  | .SMOD, m => execDivLike (fun x y => fromSigned (Int.tmod (toSigned x) (toSigned y))) m
  | .SIGNEXTEND, m =>
      match m.dataStack with
      | .int x :: .int k :: rest => { m with dataStack := .int (signExtend x k) :: rest }
      | _ => instructionFailure m
  | .SEND, m => execSend m
  | .NBSEND, m => execNbsend m

/-! ## Concrete fixtures for witnesses -/

/-- An all-zero 32-byte hash. -/
def zeros32 : List Nat := List.replicate 32 0

/-- A freshly constructed machine, as built by the tests: empty stacks,
empty-tuple register, `Int(1)` static value, the Error sentinel
installed as handler, `Extensive` status and an empty tracker. -/
def baseMachine : Machine where
  pcVal := ⟨0, .basic 0, zeros32⟩
  dataStack := []
  auxStack := []
  registerVal := .tuple []
  staticVal := .int 1
  errHandler := ⟨-2, .basic 0, zeros32⟩
  status := .Extensive
  balances := emptyTracker
  outMsgs := []
  logs := []

/-- The fungible token of `TestSendFungible` (first type byte 15, kind
byte 0) as a 256-bit stack integer. -/
def fungibleTokenInt : Nat := 15 * 2 ^ 248

/-- The fungible token of `TestSendLowBalance` (first type byte 17,
kind byte 0) as a 256-bit stack integer. -/
def lowBalTokenInt : Nat := 17 * 2 ^ 248

/-- The machine of `TestSendFungible` just before `SEND`: tracker
credited 10 of the token, message tuple `(data=1, dest=4, amount=7,
token)` on the data stack. -/
def sendTestMachine : Machine :=
  { baseMachine with
    dataStack := [.tuple [.int 1, .int 4, .int 7, .int fungibleTokenInt]]
    balances := emptyTracker.credit (tokenOfInt fungibleTokenInt) 10 }

/-- The machine of `TestSendLowBalance` / `TestNBSendLowBalance` just
before the send: tracker credited 10, requested amount 17. -/
def lowBalMachine : Machine :=
  { baseMachine with
    dataStack := [.tuple [.int 1, .int 4, .int 17, .int lowBalTokenInt]]
    balances := emptyTracker.credit (tokenOfInt lowBalTokenInt) 10 }

/-! ## Claim theorems -/

/-- C1 counterexample: two CodePoint values with different `InsnNum` but
identical operation and next-hash have identical hashes (the hash never
covers `InsnNum`), yet `Equal` returns false — so equality does not hold
iff the canonical hashes are equal. -/
theorem equal_iff_hash_counterexample :
    valueHash (.codePoint 0 (.basic 0) zeros32) = valueHash (.codePoint 1 (.basic 0) zeros32)
    ∧ codePointEqual 0 (.basic 0) zeros32 (.codePoint 1 (.basic 0) zeros32) = false :=
  ⟨rfl, rfl⟩

/-- C1 (amended): for a CodePoint value `a` and a HashOnly argument,
`Equal` agrees exactly with equality of the canonical hashes; between
two CodePoint values `Equal` compares only `insnNum`, so it is not
equivalent to hash equality there. -/
theorem equal_iff_hash_amended :
    (∀ (i : Int) (op : Operation) (nh h : List Nat),
      codePointEqual i op nh (.hashOnly h) =
        (valueHash (.codePoint i op nh) == valueHash (.hashOnly h)))
    ∧ (∀ (i j : Int) (op op2 : Operation) (nh nh2 : List Nat),
      codePointEqual i op nh (.codePoint j op2 nh2) = (i == j)) :=
  ⟨fun _ _ _ _ => rfl, fun _ _ _ _ _ _ => rfl⟩

/-- C2: `CodePointValue.Equal` compares two CodePoints by `InsnNum`
alone (ignoring operation and next-hash), compares against a HashOnly
argument by canonical hash, and returns false for Int and Tuple
arguments. -/
theorem codePointEqual_characterization :
    (∀ (i j : Int) (op op2 : Operation) (nh nh2 : List Nat),
      codePointEqual i op nh (.codePoint j op2 nh2) = (i == j))
    ∧ (∀ (i : Int) (op : Operation) (nh h : List Nat),
      codePointEqual i op nh (.hashOnly h) =
        (valueHash (.codePoint i op nh) == valueHash (.hashOnly h)))
    ∧ (∀ (i : Int) (op : Operation) (nh : List Nat) (n : Nat),
      codePointEqual i op nh (.int n) = false)
    ∧ (∀ (i : Int) (op : Operation) (nh : List Nat) (vs : List Value),
      codePointEqual i op nh (.tuple vs) = false) :=
  ⟨fun _ _ _ _ _ _ => rfl, fun _ _ _ _ => rfl, fun _ _ _ _ => rfl, fun _ _ _ _ => rfl⟩

/-- C10: hashing a CodePoint whose `InsnNum` is -1 (resp. -2) returns
the fixed `HaltCodePointHash` (resp. `ErrorCodePointHash`) constant no
matter what the operation and next-hash are, so any two code points with
the same sentinel `InsnNum` hash identically. -/
theorem sentinel_hash_ignores_fields :
    (∀ (op : Operation) (nh : List Nat),
      valueHash (.codePoint (-1) op nh) = haltCodePointHash)
    ∧ (∀ (op : Operation) (nh : List Nat),
      valueHash (.codePoint (-2) op nh) = errorCodePointHash)
    ∧ (∀ (op op2 : Operation) (nh nh2 : List Nat),
      valueHash (.codePoint (-1) op nh) = valueHash (.codePoint (-1) op2 nh2))
    ∧ (∀ (op op2 : Operation) (nh nh2 : List Nat),
      valueHash (.codePoint (-2) op nh) = valueHash (.codePoint (-2) op2 nh2)) :=
  ⟨fun op _ => by cases op <;> rfl, fun op _ => by cases op <;> rfl,
   fun op op2 _ _ => by cases op <;> cases op2 <;> rfl,
   fun op op2 _ _ => by cases op <;> cases op2 <;> rfl⟩

/-- C8: the SIGNEXTEND table of the spec, executed on the machine — the
value operand is on top of the stack, the byte-count operand below it,
and negative results are 256-bit two's-complement encodings. -/
theorem signextend_table :
    execOp .SIGNEXTEND { baseMachine with dataStack := [.int 128, .int 0] } =
      { baseMachine with dataStack := [.int (2 ^ 256 - 128)] }
    ∧ execOp .SIGNEXTEND { baseMachine with dataStack := [.int 127, .int 0] } =
      { baseMachine with dataStack := [.int 127] }
    ∧ execOp .SIGNEXTEND { baseMachine with dataStack := [.int 254, .int 0] } =
      { baseMachine with dataStack := [.int (2 ^ 256 - 2)] }
    ∧ execOp .SIGNEXTEND { baseMachine with dataStack := [.int 65534, .int 1] } =
      { baseMachine with dataStack := [.int (2 ^ 256 - 2)] }
    ∧ execOp .SIGNEXTEND { baseMachine with dataStack := [.int 65537, .int 2] } =
      { baseMachine with dataStack := [.int 65537] } :=
  ⟨rfl, rfl, rfl, rfl, rfl⟩

/-- C9: the serialization round-trip fails.  `CodePointValue.Marshal`
writes the opcode with `cv.Op.Marshal`, which emits no immediate-flag
byte, while `NewCodePointValueFromReader` reads the operation through
`NewOperationFromReader`, which consumes one; on the marshalled bytes of
the code point `(insnNum 0, Basic(opcode 2), zero next-hash)` the reader
takes the opcode byte 2 for the flag and rejects the stream. -/
theorem marshal_roundtrip_fails :
    newCodePointValueFromReader (cvMarshal ⟨0, .basic 2, zeros32⟩) = none :=
  rfl

/-- Unfolding of `valueHash` on a basic-operation code point. -/
theorem valueHash_codePoint_basic (i : Int) (opc : Nat) (nh : List Nat) :
    valueHash (.codePoint i (.basic opc) nh) =
      if i = -1 then haltCodePointHash
      else if i = -2 then errorCodePointHash
      else keccak256 (1 :: opc % 256 :: nh) :=
  rfl

/-- Unfolding of `valueHash` on an immediate-operation code point. -/
theorem valueHash_codePoint_immediate (i : Int) (opc : Nat) (v : Value) (nh : List Nat) :
    valueHash (.codePoint i (.immediate opc v) nh) =
      if i = -1 then haltCodePointHash
      else if i = -2 then errorCodePointHash
      else keccak256 (1 :: opc % 256 :: (valueHash v ++ nh)) :=
  rfl

set_option maxRecDepth 4000 in
/-- C3: a non-sentinel CodePoint with a basic operation hashes the
34-byte string `byte(1) ‖ byte(op) ‖ nextHash` with Keccak-256; with an
immediate operation the 66-byte string
`byte(1) ‖ byte(op) ‖ hash(v) ‖ nextHash`; the Halt (`insnNum = -1`) and
Error (`insnNum = -2`) sentinels hash to the two fixed, distinct
domain-separated constants. -/
theorem codepoint_hash_spec (i : Int) (opc : Nat) (v : Value) (nh : List Nat)
    (h1 : i ≠ -1) (h2 : i ≠ -2) (hnh : nh.length = 32) (hv : (valueHash v).length = 32) :
    valueHash (.codePoint i (.basic opc) nh) = keccak256 ([1, opc % 256] ++ nh)
    ∧ ([1, opc % 256] ++ nh).length = 34
    ∧ valueHash (.codePoint i (.immediate opc v) nh) =
        keccak256 ([1, opc % 256] ++ (valueHash v ++ nh))
    ∧ ([1, opc % 256] ++ (valueHash v ++ nh)).length = 66
    ∧ (∀ (op2 : Operation) (nh2 : List Nat),
        valueHash (.codePoint (-1) op2 nh2) = haltCodePointHash)
    ∧ (∀ (op2 : Operation) (nh2 : List Nat),
        valueHash (.codePoint (-2) op2 nh2) = errorCodePointHash)
    ∧ haltCodePointHash ≠ errorCodePointHash := by
  refine ⟨?_, ?_, ?_, ?_, ?_, ?_, ?_⟩
  · rw [valueHash_codePoint_basic, if_neg h1, if_neg h2]; rfl
  · simp [hnh]
  · rw [valueHash_codePoint_immediate, if_neg h1, if_neg h2]; rfl
  · simp [hnh, hv]

  · intro op2 nh2; cases op2 <;> rfl
  · intro op2 nh2; cases op2 <;> rfl
  · decide

set_option maxRecDepth 4000 in
/-- C3 witness: the spec formula evaluated at the concrete code point
`(insnNum 0, Basic(5), zero next-hash)` with immediate value `Int(0)`. -/
theorem codepoint_hash_spec_witness :
    (0 : Int) ≠ -1 ∧ (0 : Int) ≠ -2 ∧ zeros32.length = 32
    ∧ (valueHash (.int 0)).length = 32
    ∧ valueHash (.codePoint 0 (.basic 5) zeros32) = keccak256 ([1, 5 % 256] ++ zeros32) :=
  ⟨by decide, by decide, by decide, by decide,
   (codepoint_hash_spec 0 5 (.int 0) zeros32 (by decide) (by decide) (by decide) (by decide)).1⟩

/-- C4: `DIV`, `MOD`, `SDIV` and `SMOD` with a zero divisor raise an
instruction failure — no zero result is pushed, the dividend is left on
the stack, and control transfers to the error handler (the machine
becomes `Errored` when the handler is the Error sentinel, and jumps to
the handler otherwise). -/
theorem div_by_zero_fails (m : Machine) (x : Nat) (rest : List Value)
    (hstk : m.dataStack = .int x :: .int 0 :: rest) :
    execOp .DIV m = instructionFailure { m with dataStack := .int x :: rest }
    ∧ execOp .MOD m = instructionFailure { m with dataStack := .int x :: rest }
    ∧ execOp .SDIV m = instructionFailure { m with dataStack := .int x :: rest }
    ∧ execOp .SMOD m = instructionFailure { m with dataStack := .int x :: rest }
    ∧ (m.errHandler.insnNum = -2 →
        (execOp .DIV m).status = .Errored ∧ (execOp .DIV m).dataStack = .int x :: rest)
    ∧ (m.errHandler.insnNum ≠ -2 →
        (execOp .DIV m).pcVal = m.errHandler ∧ (execOp .DIV m).status = m.status
        ∧ (execOp .DIV m).dataStack = .int x :: rest) := by
  have hdiv : ∀ f, execDivLike f m = instructionFailure { m with dataStack := .int x :: rest } := by
    intro f
    simp [execDivLike, hstk]
  refine ⟨hdiv _, hdiv _, hdiv _, hdiv _, ?_, ?_⟩
  · intro h2
    simp [execOp, hdiv, instructionFailure, h2]
  · intro h2
    simp [execOp, hdiv, instructionFailure, h2]

/-- C4 witness: `TestDiv`'s failing input, `6 / 0` on a fresh machine. -/
theorem div_by_zero_fails_witness :
    ({ baseMachine with dataStack := [Value.int 6, Value.int 0] } : Machine).dataStack
        = Value.int 6 :: Value.int 0 :: ([] : List Value)
    ∧ execOp .DIV { baseMachine with dataStack := [Value.int 6, Value.int 0] } =
        instructionFailure { baseMachine with dataStack := [Value.int 6] } :=
  ⟨rfl, (div_by_zero_fails { baseMachine with dataStack := [Value.int 6, Value.int 0] } 6 [] rfl).1⟩

/-- C5: with the tracker credited 10 units of a fungible token and the
tuple `(data=1, dest=4, amount=7, token)` on top of the data stack,
`SEND` consumes the tuple, appends exactly the message
`(data=1, token, amount=7, dest=4)` to the assertion's outgoing
messages, and debits the tracker's balance to 3. -/
theorem send_fungible (m : Machine) (tokInt : Nat) (rest : List Value)
    (hstk : m.dataStack = .tuple [.int 1, .int 4, .int 7, .int tokInt] :: rest)
    (hfun : tokenIsFungible (tokenOfInt tokInt) = true)
    (hbal : m.balances = emptyTracker.credit (tokenOfInt tokInt) 10) :
    execOp .SEND m =
      { m with
        dataStack := rest
        balances := ⟨[(tokenOfInt tokInt, 3)], []⟩
        outMsgs := m.outMsgs ++ [⟨.int 1, tokenOfInt tokInt, 7, natToBytesBE 32 4⟩] } := by
  have hcredit : emptyTracker.credit (tokenOfInt tokInt) 10 =
      ⟨[(tokenOfInt tokInt, 10)], []⟩ := by
    simp [BalanceTracker.credit, hfun, emptyTracker, addFungible]
  have hcan : (emptyTracker.credit (tokenOfInt tokInt) 10).canSpend (tokenOfInt tokInt) 7
      = true := by
    rw [hcredit]
    simp [BalanceTracker.canSpend, hfun, lookupFungible]
  have hdeb : (emptyTracker.credit (tokenOfInt tokInt) 10).debit (tokenOfInt tokInt) 7 =
      ({ fungibles := [(tokenOfInt tokInt, 3)], nonFungibles := [] } : BalanceTracker) := by
    rw [hcredit]
    simp [BalanceTracker.debit, hfun, subFungible]
  simp [execOp, execSend, hstk, hbal, hcan, hdeb]

/-- C5 witness: the `TestSendFungible` machine (token type byte 15,
credit 10, send 7 to destination 4). -/
theorem send_fungible_witness :
    sendTestMachine.dataStack =
        Value.tuple [.int 1, .int 4, .int 7, .int fungibleTokenInt] :: ([] : List Value)
    ∧ tokenIsFungible (tokenOfInt fungibleTokenInt) = true
    ∧ sendTestMachine.balances = emptyTracker.credit (tokenOfInt fungibleTokenInt) 10
    ∧ execOp .SEND sendTestMachine =
      { sendTestMachine with
        dataStack := []
        balances := ⟨[(tokenOfInt fungibleTokenInt, 3)], []⟩
        outMsgs := [⟨.int 1, tokenOfInt fungibleTokenInt, 7, natToBytesBE 32 4⟩] } :=
  ⟨rfl, by decide, rfl,
   send_fungible sendTestMachine fungibleTokenInt [] rfl (by decide) rfl⟩

/-- C6: `SEND` with a requested amount the tracker cannot spend raises
an instruction failure: no outgoing message is appended, the balance
tracker is unchanged, the message tuple is still on the data stack, and
control transfers to the error handler. -/
theorem send_low_balance (m : Machine) (data : Value) (dest amt tokInt : Nat) (rest : List Value)
    (hstk : m.dataStack = .tuple [data, .int dest, .int amt, .int tokInt] :: rest)
    (hcant : m.balances.canSpend (tokenOfInt tokInt) amt = false) :
    execOp .SEND m = instructionFailure m
    ∧ (execOp .SEND m).dataStack = .tuple [data, .int dest, .int amt, .int tokInt] :: rest
    ∧ (execOp .SEND m).outMsgs = m.outMsgs
    ∧ (execOp .SEND m).balances = m.balances
    ∧ (m.errHandler.insnNum = -2 → (execOp .SEND m).status = .Errored)
    ∧ (m.errHandler.insnNum ≠ -2 →
        (execOp .SEND m).pcVal = m.errHandler ∧ (execOp .SEND m).status = m.status) := by
  have h1 : execOp .SEND m = instructionFailure m := by
    simp [execOp, execSend, hstk, hcant]
  refine ⟨h1, ?_, ?_, ?_, ?_, ?_⟩
  · rw [h1, ← hstk]
    unfold instructionFailure
    split <;> rfl
  · rw [h1]
    unfold instructionFailure
    split <;> rfl
  · rw [h1]
    unfold instructionFailure
    split <;> rfl
  · intro h2
    rw [h1]
    simp [instructionFailure, h2]
  · intro h2
    rw [h1]
    simp [instructionFailure, h2]

/-- C6 witness: the `TestSendLowBalance` machine (credit 10, request
17). -/
theorem send_low_balance_witness :
    lowBalMachine.dataStack =
        Value.tuple [.int 1, .int 4, .int 17, .int lowBalTokenInt] :: ([] : List Value)
    ∧ lowBalMachine.balances.canSpend (tokenOfInt lowBalTokenInt) 17 = false
    ∧ execOp .SEND lowBalMachine = instructionFailure lowBalMachine :=
  ⟨rfl, by decide,
   (send_low_balance lowBalMachine (.int 1) 4 17 lowBalTokenInt [] rfl (by decide)).1⟩

/-- C7: `NBSEND` debits, emits the message and pushes `Int(1)` when the
balance suffices; on insufficient balance it pushes `Int(0)`, emits no
message, leaves the balance unchanged and does not invoke the error
handler (status, pc and handler are untouched). -/
theorem nbsend_branches (m : Machine) (data : Value) (dest amt tokInt : Nat) (rest : List Value)
    (hstk : m.dataStack = .tuple [data, .int dest, .int amt, .int tokInt] :: rest) :
    execOp .NBSEND m =
      (if m.balances.canSpend (tokenOfInt tokInt) amt then
        { m with
          dataStack := .int 1 :: rest
          balances := m.balances.debit (tokenOfInt tokInt) amt
          outMsgs := m.outMsgs ++ [⟨data, tokenOfInt tokInt, amt, natToBytesBE 32 dest⟩] }
       else { m with dataStack := .int 0 :: rest })
    ∧ (m.balances.canSpend (tokenOfInt tokInt) amt = false →
        (execOp .NBSEND m).dataStack = .int 0 :: rest
        ∧ (execOp .NBSEND m).outMsgs = m.outMsgs
        ∧ (execOp .NBSEND m).balances = m.balances
        ∧ (execOp .NBSEND m).status = m.status
        ∧ (execOp .NBSEND m).pcVal = m.pcVal
        ∧ (execOp .NBSEND m).errHandler = m.errHandler) := by
  have h1 : execOp .NBSEND m =
      if m.balances.canSpend (tokenOfInt tokInt) amt then
        { m with
          dataStack := .int 1 :: rest
          balances := m.balances.debit (tokenOfInt tokInt) amt
          outMsgs := m.outMsgs ++ [⟨data, tokenOfInt tokInt, amt, natToBytesBE 32 dest⟩] }
      else { m with dataStack := .int 0 :: rest } := by
    simp [execOp, execNbsend, hstk]
  refine ⟨h1, ?_⟩
  intro hf
  rw [h1, hf]
  simp

/-- C7 witness: the `TestNBSendLowBalance` machine (credit 10, request
17) instantiating the branch characterization. -/
theorem nbsend_branches_witness :
    lowBalMachine.dataStack =
        Value.tuple [.int 1, .int 4, .int 17, .int lowBalTokenInt] :: ([] : List Value)
    ∧ execOp .NBSEND lowBalMachine =
      (if lowBalMachine.balances.canSpend (tokenOfInt lowBalTokenInt) 17 then
        { lowBalMachine with
          dataStack := [Value.int 1]
          balances := lowBalMachine.balances.debit (tokenOfInt lowBalTokenInt) 17
          outMsgs := lowBalMachine.outMsgs ++
            [⟨.int 1, tokenOfInt lowBalTokenInt, 17, natToBytesBE 32 4⟩] }
       else { lowBalMachine with dataStack := [Value.int 0] }) :=
  ⟨rfl, (nbsend_branches lowBalMachine (.int 1) 4 17 lowBalTokenInt [] rfl).1⟩

end ArbAvm
